import Mathlib

/-!
Verification development for the remote-table virtualization engine
(DuckDB extension for a Cloudflare D1 backend).

The definitions below are shallow embeddings of the C++ sources:
* `src/d1_http.cpp` — JSON response parsing (`ParseResultRow`,
  `ParseD1Response`, the `ExtractJSON*` helpers) and the type mapper
  `SQLiteTypeToDuckDB`;
* `src/d1_attach.cpp` — the scan function `D1ScanFunction`, the predicate
  pushdown `D1ScanPushdownComplexFilter` with its helpers
  (`ExpressionToSQL`, `ComparisonTypeToSQL`, `ValueToSQL`,
  `EscapeSQLString`) and the limit-pushdown rewriter
  `OptimizeD1ScanLimitPushdown`;
* `src/storage/d1_transaction.cpp` — `D1Transaction::Commit`.

Machine integers are modelled as `Nat`/`Int`; C++ `double` values are
modelled as exact rationals (`ℚ`); network calls are modelled as oracle
function parameters; a function that may throw returns its normal result
together with an `Option String` error component, the state components
carrying exactly what the C++ object holds when the exception propagates.
-/

/-! ### Basic string machinery (models of `std::string` operations) -/

/-- Model of `std::string` prefix test: `hay.compare(0, needle.size(), needle) == 0`.
Used to build `findSub` below. -/
def startsWith : List Char → List Char → Bool
  | _, [] => true
  | [], _ :: _ => false
  | h :: hs, n :: ns => h == n && startsWith hs ns

/-- Model of `std::string::find(needle)`: index of the first occurrence of
`needle`, `none` for `npos`. -/
def findSub : List Char → List Char → Option Nat
  | hay, needle =>
    if startsWith hay needle then some 0
    else
      match hay with
      | [] => none
      | _ :: t => (findSub t needle).map (· + 1)

/-- Model of `std::string::find(pattern) != npos` (substring containment). -/
def containsSub (hay needle : List Char) : Bool :=
  (findSub hay needle).isSome

/-- Case-insensitive character equality (compare after ASCII upcasing). -/
def charEqCI (a b : Char) : Bool := a.toUpper == b.toUpper

/-- Case-insensitive prefix test, used by the spec-side formulation of the
type-affinity rules. -/
def startsWithCI : List Char → List Char → Bool
  | _, [] => true
  | [], _ :: _ => false
  | h :: hs, n :: ns => charEqCI h n && startsWithCI hs ns

/-- Case-insensitive substring containment, used by the spec-side
formulation of the type-affinity rules. -/
def containsCI : List Char → List Char → Bool
  | hay, needle =>
    if startsWithCI hay needle then true
    else
      match hay with
      | [] => false
      | _ :: t => containsCI t needle

/-! ### Type mapper (`SQLiteTypeToDuckDB`, `src/d1_http.cpp:617`) -/

/-- The DuckDB logical types produced by the type mapper
(`LogicalType::BIGINT` etc. in the source). -/
inductive LogicalTypeId where
  | bigint
  | varchar
  | blob
  | double
  | boolean
  | date
  | timestamp
  deriving DecidableEq, Repr

/-- Shallow embedding of `SQLiteTypeToDuckDB` (`src/d1_http.cpp:617-657`):
upcase the declared type, then apply substring rules in the source's
order: INT; CHAR/CLOB/TEXT; BLOB or empty; REAL/FLOA/DOUB; BOOL; DATE;
TIME; default VARCHAR. -/
def SQLiteTypeToDuckDB (sqlite_type : String) : LogicalTypeId :=
  let upper_type : List Char := sqlite_type.data.map Char.toUpper
  if containsSub upper_type "INT".data then .bigint
  else if containsSub upper_type "CHAR".data || containsSub upper_type "CLOB".data ||
      containsSub upper_type "TEXT".data then .varchar
  else if containsSub upper_type "BLOB".data || upper_type.isEmpty then .blob
  else if containsSub upper_type "REAL".data || containsSub upper_type "FLOA".data ||
      containsSub upper_type "DOUB".data then .double
  else if containsSub upper_type "BOOL".data then .boolean
  else if containsSub upper_type "DATE".data then .date
  else if containsSub upper_type "TIME".data then .timestamp
  else .varchar

/-- Spec-side restatement of the (amended) affinity priority list, written
directly with case-insensitive substring tests on the original string:
contains INT → 64-bit integer; else CHAR/CLOB/TEXT → text; else BLOB or
empty → binary; else REAL/FLOA/DOUB → double; else BOOL → boolean; else
DATE → date; else TIME → timestamp; otherwise text. -/
def mapTypeSpec (remoteTypeString : String) : LogicalTypeId :=
  let s := remoteTypeString.data
  if containsCI s "INT".data then .bigint
  else if containsCI s "CHAR".data || containsCI s "CLOB".data ||
      containsCI s "TEXT".data then .varchar
  else if containsCI s "BLOB".data || s.isEmpty then .blob
  else if containsCI s "REAL".data || containsCI s "FLOA".data ||
      containsCI s "DOUB".data then .double
  else if containsCI s "BOOL".data then .boolean
  else if containsCI s "DATE".data then .date
  else if containsCI s "TIME".data then .timestamp
  else .varchar

/-! ### Models of `std::stoll` / `std::stod` on decimal text

`std::stoll` skips leading whitespace, reads an optional sign and a
non-empty digit run, and throws (`invalid_argument` with no digits,
`out_of_range` beyond `int64`) otherwise; every caller in the sources
catches the exception, so the model returns `Option`.  `std::stod` is
modelled on plain decimal forms `[ws][sign]digits[.digits][(e|E)[sign]digits]`
with the parsed value taken exactly (doubles are modelled as rationals;
IEEE rounding is abstracted away). -/

/-- The whitespace set of `isspace` in the C locale. -/
def isSpaceChar (c : Char) : Bool :=
  c == ' ' || c == '\t' || c == '\n' || c == '\x0b' || c == '\x0c' || c == '\r'

/-- Optional leading sign: returns (-1 or 1, rest). -/
def parseSign : List Char → Int × List Char
  | '-' :: rest => (-1, rest)
  | '+' :: rest => (1, rest)
  | s => (1, s)

/-- Digit run folded into a natural number. -/
def digitsToNat (ds : List Char) : Nat :=
  ds.foldl (fun acc c => acc * 10 + (c.toNat - '0'.toNat)) 0

/-- Model of `std::stoll` (decimal): `none` models a thrown
`invalid_argument` (no digits) or `out_of_range` (outside `int64`). -/
def stollOpt (s : String) : Option Int :=
  let cs := s.data.dropWhile isSpaceChar
  let (sign, cs2) := parseSign cs
  let digits := cs2.takeWhile Char.isDigit
  if digits.isEmpty then none
  else
    let v : Int := sign * (digitsToNat digits : Int)
    if v < -(2 ^ 63) || (2 ^ 63 - 1 : Int) < v then none else some v

/-- Model of `std::stod` on decimal text, exact-rational valued: `none`
models a thrown `invalid_argument` (no mantissa digits). -/
def stodOpt (s : String) : Option ℚ :=
  let cs := s.data.dropWhile isSpaceChar
  let (sign, cs2) := parseSign cs
  let intDigits := cs2.takeWhile Char.isDigit
  let rest := cs2.dropWhile Char.isDigit
  let (fracDigits, rest2) :=
    match rest with
    | '.' :: tl => (tl.takeWhile Char.isDigit, tl.dropWhile Char.isDigit)
    | _ => ([], rest)
  if intDigits.isEmpty && fracDigits.isEmpty then none
  else
    let mant : ℚ := (digitsToNat (intDigits ++ fracDigits) : ℚ) / (10 : ℚ) ^ fracDigits.length
    let expVal : Int :=
      match rest2 with
      | 'e' :: tl =>
        let (es, tl2) := parseSign tl
        let eds := tl2.takeWhile Char.isDigit
        if eds.isEmpty then 0 else es * (digitsToNat eds : Int)
      | 'E' :: tl =>
        let (es, tl2) := parseSign tl
        let eds := tl2.takeWhile Char.isDigit
        if eds.isEmpty then 0 else es * (digitsToNat eds : Int)
      | _ => 0
    some ((sign : ℚ) * mant * (10 : ℚ) ^ expVal)

/-! ### JSON value extraction helpers (`src/d1_http.cpp:48-119`) -/

/-- The scan from `json[pos]` (after an opening quote) to the matching
unescaped quote, as in `ExtractJSONString` lines 71-81 and the string
branch of `ParseResultRow` lines 279-291: a backslash skips the following
character; the content (escapes NOT decoded) and the remainder after the
closing quote are returned.  An unterminated string yields the rest of the
input as content. -/
def scanStringSplit : List Char → List Char × List Char
  | [] => ([], [])
  | '\\' :: c :: rest =>
    let (a, b) := scanStringSplit rest
    ('\\' :: c :: a, b)
  | '"' :: rest => ([], rest)
  | c :: rest =>
    let (a, b) := scanStringSplit rest
    (c :: a, b)

/-- Shallow embedding of `ExtractJSONString` (`src/d1_http.cpp:48-90`):
locate `"key":`, skip spaces/tabs, return `""` for a missing key, end of
input or a `null` value; otherwise the quoted content, or the raw text up
to the next `,`/`}`/`]` for numbers and booleans. -/
def ExtractJSONString (json key : String) : String :=
  let search : List Char := '"' :: key.data ++ ['"', ':']
  match findSub json.data search with
  | none => ""
  | some pos =>
    let afterKey := json.data.drop (pos + search.length)
    let rest := afterKey.dropWhile (fun c => c == ' ' || c == '\t')
    match rest with
    | [] => ""
    | _ =>
      if startsWith rest "null".data then ""
      else
        match rest with
        | '"' :: tail => String.mk (scanStringSplit tail).1
        | _ => String.mk (rest.takeWhile (fun c => !(c == ',' || c == '\x7d' || c == ']')))

/-- Shallow embedding of `ExtractJSONBool` (`src/d1_http.cpp:92-95`). -/
def ExtractJSONBool (json key : String) : Bool :=
  ExtractJSONString json key == "true"

/-- Shallow embedding of `ExtractJSONInt` (`src/d1_http.cpp:97-107`):
empty extraction or a caught `std::stoll` failure yields 0. -/
def ExtractJSONInt (json key : String) : Int :=
  let val := ExtractJSONString json key
  if val == "" then 0 else (stollOpt val).getD 0

/-- Shallow embedding of `ExtractJSONDouble` (`src/d1_http.cpp:109-119`):
empty extraction or a caught `std::stod` failure yields 0. -/
def ExtractJSONDouble (json key : String) : ℚ :=
  let val := ExtractJSONString json key
  if val == "" then 0 else (stodOpt val).getD 0

/-! ### Row parsing (`ParseResultRow`, `src/d1_http.cpp:233-325`) -/

/-- A parsed row: the `unordered_map<string,string>` of the source,
modelled as an association list with overwrite-on-assign (`row[key] = value`).
Only emptiness and per-key lookup of the map are ever observed. -/
abbrev RowMap := List (String × String)

/-- Model of `row[key] = value` on `unordered_map`: overwrite the binding
if the key exists, insert otherwise. -/
def rowAssign : RowMap → String → String → RowMap
  | [], k, v => [(k, v)]
  | (k', v') :: rest, k, v =>
    if k' == k then (k, v) :: rest else (k', v') :: rowAssign rest k v

/-- Model of `row.find(key)` on `unordered_map` (`some` for a hit). -/
def rowFind : RowMap → String → Option String
  | [], _ => none
  | (k', v') :: rest, k => if k' == k then some v' else rowFind rest k

/-- Model of `std::string::find(ch, pos)` splitting at the first occurrence
of a character: content before it and remainder after it, `none` for `npos`. -/
def splitAtChar : List Char → Char → Option (List Char × List Char)
  | [], _ => none
  | c :: rest, ch =>
    if c == ch then some ([], rest)
    else (splitAtChar rest ch).map (fun p => (c :: p.1, p.2))

/-- The value-parsing block of `ParseResultRow` (`src/d1_http.cpp:277-313`),
starting at the first character of the value: a quoted string keeps its
raw content (escapes skipped, not decoded); `null` becomes `""`; `true`
becomes `"1"`; `false` becomes `"0"`; anything else is taken up to the
next `,` or `}` with trailing whitespace trimmed (that delimiter is NOT
consumed); end of input gives `""`. -/
def parseValue : List Char → String × List Char
  | [] => ("", [])
  | '"' :: tail =>
    let (content, rest) := scanStringSplit tail
    (String.mk content, rest)
  | 'n' :: 'u' :: 'l' :: 'l' :: rest => ("", rest)
  | 't' :: 'r' :: 'u' :: 'e' :: rest => ("1", rest)
  | 'f' :: 'a' :: 'l' :: 's' :: 'e' :: rest => ("0", rest)
  | s =>
    let content := s.takeWhile (fun c => !(c == ',' || c == '\x7d'))
    let trimmed := (content.reverse.dropWhile
      (fun c => c == ' ' || c == '\t' || c == '\n')).reverse
    (String.mk trimmed, s.dropWhile (fun c => !(c == ',' || c == '\x7d')))

/-- The key/value loop of `ParseResultRow` (`src/d1_http.cpp:243-322`),
fuelled (the C++ loop advances its position into a fixed string, so
`2 * length + 2` iterations always suffice): skip whitespace; stop at end
of input or `}`; skip a comma; parse a quoted key (plain quote search, no
escapes) or stop; skip `:`/spaces/tabs; parse the value; record the key in
first-seen column order and assign it in the row map. -/
def parseRowLoop : Nat → List Char → RowMap → List String → RowMap × List String
  | 0, _, row, order => (row, order)
  | fuel + 1, s, row, order =>
    let s1 := s.dropWhile (fun c => c == ' ' || c == '\t' || c == '\n')
    match s1 with
    | [] => (row, order)
    | '\x7d' :: _ => (row, order)
    | ',' :: rest => parseRowLoop fuel rest row order
    | '"' :: rest =>
      match splitAtChar rest '"' with
      | none => (row, order)
      | some (keyChars, afterKey) =>
        let key := String.mk keyChars
        let s2 := afterKey.dropWhile (fun c => c == ':' || c == ' ' || c == '\t')
        let (value, s3) := parseValue s2
        let order' := if order.contains key then order else order ++ [key]
        parseRowLoop fuel s3 (rowAssign row key value) order'
    | _ => (row, order)

/-- Shallow embedding of `ParseResultRow` (`src/d1_http.cpp:233-325`): find
the opening brace (empty row if absent) and run the key/value loop; the
in-out `column_order` vector is modelled by returning its new value. -/
def ParseResultRow (row_json : List Char) (column_order : List String) :
    RowMap × List String :=
  match findSub row_json ['\x7b'] with
  | none => ([], column_order)
  | some p =>
    parseRowLoop (2 * row_json.length + 2) (row_json.drop (p + 1)) [] column_order

/-! ### Response parsing (`ParseD1Response`, `src/d1_http.cpp:328-413`) -/

/-- Execution metadata (`D1QueryMeta`, `src/include/d1_extension.hpp:79-94`);
`duration_ms` is a C++ `double`, modelled as `ℚ`. -/
structure D1QueryMeta where
  served_by_primary : Bool
  served_by_region : String
  duration_ms : ℚ
  changes : Int
  last_row_id : Int
  changed_db : Bool
  size_after : Int
  rows_read : Int
  rows_written : Int
  deriving DecidableEq, Repr

/-- The zero-initialised `D1QueryMeta()` of the source. -/
def defaultD1QueryMeta : D1QueryMeta :=
  { served_by_primary := false, served_by_region := "", duration_ms := 0,
    changes := 0, last_row_id := 0, changed_db := false, size_after := 0,
    rows_read := 0, rows_written := 0 }

/-- Query result (`D1QueryResult`, `src/include/d1_extension.hpp:96-105`). -/
structure D1QueryResult where
  success : Bool
  meta : D1QueryMeta
  results : List RowMap
  column_order : List String
  error : String
  deriving DecidableEq, Repr

/-- The default-constructed `D1QueryResult()` of the source. -/
def defaultD1QueryResult : D1QueryResult :=
  { success := false, meta := defaultD1QueryMeta, results := [],
    column_order := [], error := "" }

/-- The brace-depth row scan of `ParseD1Response` (`src/d1_http.cpp:368-395`),
starting just after the `[` of the results array: `{` at depth 0 starts a
row span; the `}` returning to depth 0 closes it and parses it with
`ParseResultRow` (empty rows are not pushed); `]` at depth 0 stops; the
depth is a C++ `int`, modelled as `Int`. -/
def scanRows : List Char → Int → List Char → List RowMap → List String →
    List RowMap × List String
  | [], _, _, rows, order => (rows, order)
  | c :: rest, depth, cur, rows, order =>
    if c == '\x7b' then
      scanRows rest (depth + 1) (if depth == 0 then ['\x7b'] else cur ++ ['\x7b']) rows order
    else if c == '\x7d' then
      let cur' := cur ++ ['\x7d']
      if depth - 1 == 0 then
        let (row, order') := ParseResultRow cur' order
        scanRows rest (depth - 1) cur' (if row.isEmpty then rows else rows ++ [row]) order'
      else
        scanRows rest (depth - 1) cur' rows order
    else if c == ']' && depth == 0 then (rows, order)
    else scanRows rest depth (cur ++ [c]) rows order

/-- The `"errors"` block of `ParseD1Response` (`src/d1_http.cpp:335-349`):
find the bracketed errors array and extract the first `"message"`, else `""`. -/
def parseErrorsSection (r : List Char) : String :=
  match findSub r ("\"errors\":".data) with
  | none => ""
  | some errors_pos =>
    match findSub (r.drop errors_pos) ['['] with
    | none => ""
    | some a0 =>
      let arr_start := errors_pos + a0
      match findSub (r.drop arr_start) [']'] with
      | none => ""
      | some e0 =>
        let errors_arr := (r.drop arr_start).take (e0 + 1)
        if errors_arr == "[]".data then ""
        else
          match findSub errors_arr ("\"message\":".data) with
          | none => ""
          | some msg_pos => ExtractJSONString (String.mk (errors_arr.drop msg_pos)) "message"

/-- The `"meta"` block of `ParseD1Response` (`src/d1_http.cpp:398-410`):
defaults when absent, else field-by-field extraction from the suffix
starting at `"meta":`. -/
def parseMetaSection (response : String) : D1QueryMeta :=
  match findSub response.data ("\"meta\":".data) with
  | none => defaultD1QueryMeta
  | some meta_pos =>
    let meta_section := String.mk (response.data.drop meta_pos)
    { served_by_primary := ExtractJSONBool meta_section "served_by_primary",
      served_by_region := ExtractJSONString meta_section "served_by_region",
      duration_ms := ExtractJSONDouble meta_section "duration",
      changes := ExtractJSONInt meta_section "changes",
      last_row_id := ExtractJSONInt meta_section "last_row_id",
      changed_db := ExtractJSONBool meta_section "changed_db",
      size_after := ExtractJSONInt meta_section "size_after",
      rows_read := ExtractJSONInt meta_section "rows_read",
      rows_written := ExtractJSONInt meta_section "rows_written" }

/-- Shallow embedding of `ParseD1Response` (`src/d1_http.cpp:328-413`):
top-level success flag; first error message from the errors array; early
return when unsuccessful with a non-empty error; rows parsed from the
`"results"` array via the brace-depth scan; metadata parsed last (only on
the path that found a results array, as in the source). -/
def ParseD1Response (response : String) : D1QueryResult :=
  let r := response.data
  let success := ExtractJSONBool response "success"
  let error := parseErrorsSection r
  if !success && !(error == "") then
    { defaultD1QueryResult with success := success, error := error }
  else
    match findSub r ("\"results\":".data) with
    | none => { defaultD1QueryResult with success := success, error := error }
    | some results_pos =>
      match findSub (r.drop results_pos) ['['] with
      | none => { defaultD1QueryResult with success := success, error := error }
      | some a0 =>
        let (rows, order) := scanRows (r.drop (results_pos + a0 + 1)) 0 [] [] []
        { success := success, meta := parseMetaSection response,
          results := rows, column_order := order, error := error }

/-! ### Scan operator (`D1ScanFunction`, `src/d1_attach.cpp:276-568`) -/

/-- D1 endpoint configuration (`D1Config`, `src/include/d1_extension.hpp:19-44`). -/
structure D1Config where
  account_id : String
  api_token : String
  database_id : String
  database_name : String
  deriving DecidableEq, Repr

/-- Scan bind state (`D1ScanBindData`, `src/d1_attach.cpp:276-285`):
pushdown accumulators (`where_clause`, `limit`, 0 = no limit), the
memoized remote result and the `executed` flag. -/
structure D1ScanBindData where
  config : D1Config
  table_name : String
  column_names : List String
  column_types : List LogicalTypeId
  result : D1QueryResult
  executed : Bool
  where_clause : String
  limit : Nat
  deriving DecidableEq, Repr

/-- Scan global state (`D1ScanGlobalState`, `src/d1_attach.cpp:287-293`):
the row cursor and the projected column ids. -/
structure D1ScanGlobalState where
  current_row : Nat
  column_ids : List Nat
  deriving DecidableEq, Repr

/-- A produced cell: `Value()` (null) or a typed DuckDB value; doubles are
modelled as exact rationals. -/
inductive CellValue where
  | nullValue
  | bigintValue (i : Int)
  | doubleValue (q : ℚ)
  | booleanValue (b : Bool)
  | varcharValue (s : String)
  deriving DecidableEq, Repr

/-- `STANDARD_VECTOR_SIZE`: DuckDB's vector batch size. -/
def STANDARD_VECTOR_SIZE : Nat := 2048

/-- The per-cell switch of the scan loop (`src/d1_attach.cpp:536-557`),
applied to a present, non-empty text value: a caught `std::stoll`/`std::stod`
failure produces `Value()` (null); booleans test for `"1"`/`"true"`; every
other column type keeps the text. -/
def convertCellValue (t : LogicalTypeId) (val : String) : CellValue :=
  match t with
  | .bigint =>
    match stollOpt val with
    | some i => .bigintValue i
    | none => .nullValue
  | .double =>
    match stodOpt val with
    | some q => .doubleValue q
    | none => .nullValue
  | .boolean => .booleanValue (val == "1" || val == "true")
  | _ => .varcharValue val

/-- One output cell of the scan loop (`src/d1_attach.cpp:520-560`): a
requested column id outside the known column range yields null (rowid or
invalid column); a missing key or an empty-string value yields null;
otherwise the value converts through `convertCellValue`. -/
def scanOutputCell (column_names : List String) (column_types : List LogicalTypeId)
    (row : RowMap) (col_idx : Nat) : CellValue :=
  if column_names.length ≤ col_idx then .nullValue
  else
    let col_name := column_names.getD col_idx ""
    match rowFind row col_name with
    | some v =>
      if !(v == "") then convertCellValue (column_types.getD col_idx .varchar) v
      else .nullValue
    | none => .nullValue

/-- The row-emitting while loop of `D1ScanFunction` (`src/d1_attach.cpp:513-567`):
copy up to one vector batch of memoized rows from the cursor, materializing
only the requested column ids, and advance the cursor. -/
def emitScanRows (bind : D1ScanBindData) (state : D1ScanGlobalState) :
    List (List CellValue) × D1ScanGlobalState :=
  let batch := (bind.result.results.drop state.current_row).take STANDARD_VECTOR_SIZE
  (batch.map (fun row =>
      state.column_ids.map (scanOutputCell bind.column_names bind.column_types row)),
   { state with current_row := state.current_row + batch.length })

/-- The outcome of one call to the scan function: updated bind/global
state, the produced rows, the remote calls issued during the call, and the
thrown error if any (states carry their values at throw time). -/
structure ScanStepResult where
  bind_data : D1ScanBindData
  state : D1ScanGlobalState
  output : List (List CellValue)
  calls : List String
  error : Option String
  deriving DecidableEq, Repr

/-- Shallow embedding of `D1ScanFunction` (`src/d1_attach.cpp:492-568`);
`query` is the oracle for `D1ExecuteQuery`.  On the first call the SQL is
built (`WHERE` appended when the accumulator is non-empty, `LIMIT` when
the limit field is positive), exactly one remote call is issued, the
result memoized and `executed` set — a failed call throws after those
writes.  Later calls only read the memoized result. -/
def D1ScanFunction (bind : D1ScanBindData) (state : D1ScanGlobalState)
    (query : D1Config → String → D1QueryResult) : ScanStepResult :=
  if !bind.executed then
    let sql := "SELECT * FROM " ++ bind.table_name
      ++ (if !(bind.where_clause == "") then " WHERE " ++ bind.where_clause else "")
      ++ (if 0 < bind.limit then " LIMIT " ++ toString bind.limit else "")
    let res := query bind.config sql
    let bind' := { bind with result := res, executed := true }
    if !res.success then
      { bind_data := bind', state := state, output := [], calls := [sql],
        error := some ("D1 query failed: " ++ res.error) }
    else
      let (rows, state') := emitScanRows bind' state
      { bind_data := bind', state := state', output := rows, calls := [sql],
        error := none }
  else
    let (rows, state') := emitScanRows bind state
    { bind_data := bind, state := state', output := rows, calls := [],
      error := none }

/-! ### Predicate translator (`src/d1_attach.cpp:333-490`) -/

/-- The comparison expression types reaching `ComparisonTypeToSQL`
(`ExpressionType` in the source); `otherCompare` stands for any
comparison type outside the six supported ones (its SQL text is `""`). -/
inductive CompareType where
  | equal
  | notEqual
  | lessThan
  | greaterThan
  | lessThanOrEqualTo
  | greaterThanOrEqualTo
  | otherCompare
  deriving DecidableEq, Repr

/-- Conjunction expression types (`CONJUNCTION_AND` / `CONJUNCTION_OR`). -/
inductive ConjunctionType where
  | conjunctionAnd
  | conjunctionOr
  deriving DecidableEq, Repr

/-- A bound constant's value as consumed by `ValueToSQL`
(`src/d1_attach.cpp:370-382`): null, VARCHAR, BOOLEAN, or a value whose
default `ToString()` text is carried directly (e.g. BIGINT). -/
inductive SQLValue where
  | nullValue
  | varcharValue (s : String)
  | booleanValue (b : Bool)
  | bigintValue (i : Int)
  deriving DecidableEq, Repr

/-- Bound scalar expressions as inspected by the pushdown code
(`GetExpressionClass` dispatch): column references, constants,
comparisons, conjunctions, and `otherExpr` for every other expression
class (none of which the translator matches). -/
inductive ScalarExpr where
  | boundColumnRef (name : String)
  | boundConstant (v : SQLValue)
  | boundComparison (ctype : CompareType) (left right : ScalarExpr)
  | boundConjunction (ctype : ConjunctionType) (children : List ScalarExpr)
  | otherExpr
  deriving Repr

/-- Shallow embedding of `EscapeSQLString` (`src/d1_attach.cpp:334-347`):
wrap in single quotes, doubling embedded single quotes. -/
def EscapeSQLString (str : String) : String :=
  "'" ++ String.mk (str.data.foldr
    (fun c acc => if c == '\'' then '\'' :: '\'' :: acc else c :: acc) []) ++ "'"

/-- Shallow embedding of `ComparisonTypeToSQL` (`src/d1_attach.cpp:350-367`). -/
def ComparisonTypeToSQL : CompareType → String
  | .equal => "="
  | .notEqual => "!="
  | .lessThan => "<"
  | .greaterThan => ">"
  | .lessThanOrEqualTo => "<="
  | .greaterThanOrEqualTo => ">="
  | .otherCompare => ""

/-- Shallow embedding of `ValueToSQL` (`src/d1_attach.cpp:370-382`). -/
def ValueToSQL : SQLValue → String
  | .nullValue => "NULL"
  | .varcharValue s => EscapeSQLString s
  | .booleanValue b => if b then "1" else "0"
  | .bigintValue i => toString i

/-- The operator mirroring of `ExpressionToSQL`'s reversed branch
(`src/d1_attach.cpp:407-416`): `<` ↔ `>`, `<=` ↔ `>=`, others unchanged. -/
def reverseComparison : CompareType → CompareType
  | .lessThan => .greaterThan
  | .greaterThan => .lessThan
  | .lessThanOrEqualTo => .greaterThanOrEqualTo
  | .greaterThanOrEqualTo => .lessThanOrEqualTo
  | c => c

/-- Shallow embedding of `ExpressionToSQL` (`src/d1_attach.cpp:385-425`):
only a bound comparison between a column reference and a constant (either
operand order, operator mirrored when reversed) translates; everything
else yields `""` (the source's no-match sentinel). -/
def ExpressionToSQL (expr : ScalarExpr) : String :=
  match expr with
  | .boundComparison ctype left right =>
    let firstCase :=
      match left, right with
      | .boundColumnRef name, .boundConstant v =>
        let op := ComparisonTypeToSQL ctype
        if !(op == "") then name ++ " " ++ op ++ " " ++ ValueToSQL v else ""
      | _, _ => ""
    if !(firstCase == "") then firstCase
    else
      match left, right with
      | .boundConstant v, .boundColumnRef name =>
        let op := ComparisonTypeToSQL (reverseComparison ctype)
        if !(op == "") then name ++ " " ++ op ++ " " ++ ValueToSQL v else ""
      | _, _ => ""
  | _ => ""

/-- Join a non-empty condition list with `" AND "` separators, as both the
sub-condition combiner (`src/d1_attach.cpp:461-468`) and the WHERE-clause
builder (477-484) do. -/
def joinWithAnd : List String → String
  | [] => ""
  | c :: rest => rest.foldl (fun acc s => acc ++ " AND " ++ s) c

/-- The all-children translation loop of the AND-conjunction branch
(`src/d1_attach.cpp:450-459`): `none` as soon as one child fails. -/
def convertChildrenLoop : List ScalarExpr → Option (List String)
  | [] => some []
  | c :: rest =>
    let child_sql := ExpressionToSQL c
    if child_sql == "" then none
    else
      match convertChildrenLoop rest with
      | some l => some (child_sql :: l)
      | none => none

/-- The per-filter body of the pushdown loop (`src/d1_attach.cpp:435-474`):
a direct comparison translates via `ExpressionToSQL`; an AND conjunction
translates iff every child does and the sub-condition list is non-empty,
wrapped in parentheses; everything else is not pushed. -/
def filterDecision (f : ScalarExpr) : Option String :=
  let sql := ExpressionToSQL f
  if !(sql == "") then some sql
  else
    match f with
    | .boundConjunction ctype children =>
      if ctype == .conjunctionAnd then
        match convertChildrenLoop children with
        | some subs =>
          if !subs.isEmpty then some ("(" ++ joinWithAnd subs ++ ")") else none
        | none => none
      else none
    | _ => none

/-- The index-tracking collection loop of `D1ScanPushdownComplexFilter`
(`src/d1_attach.cpp:432-474`): SQL conditions and indices to remove, in
encounter order. -/
def pushdownLoop (i : Nat) : List ScalarExpr → List String × List Nat
  | [] => ([], [])
  | f :: rest =>
    let r := pushdownLoop (i + 1) rest
    match filterDecision f with
    | some sql => (sql :: r.1, i :: r.2)
    | none => r

/-- The reverse-order erase of pushed filters (`src/d1_attach.cpp:487-489`). -/
def eraseIndicesRev (filters : List ScalarExpr) (idxs : List Nat) : List ScalarExpr :=
  idxs.reverse.foldl (fun acc i => acc.eraseIdx i) filters

/-- Shallow embedding of `D1ScanPushdownComplexFilter`
(`src/d1_attach.cpp:428-490`): collect translatable filters, append their
SQL (joined with `" AND "`) to the bind data's WHERE accumulator when any
exist, and erase them from the residual filter list in reverse index
order. -/
def D1ScanPushdownComplexFilter (bind : D1ScanBindData) (filters : List ScalarExpr) :
    D1ScanBindData × List ScalarExpr :=
  let collected := pushdownLoop 0 filters
  let bind' :=
    if !collected.1.isEmpty then
      { bind with where_clause := bind.where_clause ++ joinWithAnd collected.1 }
    else bind
  (bind', eraseIndicesRev filters collected.2)

/-! ### Limit/TopN pushdown rewriter (`OptimizeD1ScanLimitPushdown`,
`src/d1_attach.cpp:640-708`) -/

/-- `LimitNodeType` of a `LogicalLimit`'s limit value: only
`CONSTANT_VALUE` is pushed; `expressionValue` stands for the
parameterized/dynamic kinds. -/
inductive LimitVal where
  | constantValue (n : Nat)
  | expressionValue
  deriving DecidableEq, Repr

/-- Logical plan operators as inspected by the rewriter: TOP_N (order plus
limit and offset, one child), LIMIT (one child), PROJECTION and FILTER
(skipped on the child chain, one child each), GET (a scan leaf carrying
its table function name and — standing for its `D1ScanBindData` — the
bind data's pushed limit field), and `otherOp` for every other operator
(any number of children). -/
inductive LogicalOp where
  | topN (lim off : Nat) (child : LogicalOp)
  | limit (val : LimitVal) (child : LogicalOp)
  | projection (child : LogicalOp)
  | filter (child : LogicalOp)
  | get (functionName : String) (bindLimit : Nat)
  | otherOp (children : List LogicalOp)

/-- The child-chain walk of the rewriter (`src/d1_attach.cpp:647-650` and
674-677): skip PROJECTION and FILTER nodes. -/
def chainTarget : LogicalOp → LogicalOp
  | .projection c => chainTarget c
  | .filter c => chainTarget c
  | p => p

/-- The combined guard of the rewriter: the chain ends in a GET whose
table function is `d1_scan` (`src/d1_attach.cpp:652-661` and 679-688). -/
def chainIsD1Get (c : LogicalOp) : Bool :=
  match chainTarget c with
  | .get f _ => f == "d1_scan"
  | _ => false

/-- Writing `bind_data.limit` through the chain: replace the limit field
of the GET at the end of the projection/filter chain. -/
def setChainLimit (n : Nat) : LogicalOp → LogicalOp
  | .projection c => .projection (setChainLimit n c)
  | .filter c => .filter (setChainLimit n c)
  | .get f _ => .get f n
  | p => p

mutual

/-- Structural size of a plan (field values ignored), the termination
measure of the rewriter. -/
def opSize : LogicalOp → Nat
  | .topN _ _ c => opSize c + 1
  | .limit _ c => opSize c + 1
  | .projection c => opSize c + 1
  | .filter c => opSize c + 1
  | .get _ _ => 1
  | .otherOp cs => opsSize cs + 1

/-- Structural size of a child list. -/
def opsSize : List LogicalOp → Nat
  | [] => 0
  | c :: cs => opSize c + opsSize cs + 1

end

mutual

/-- Shallow embedding of `OptimizeD1ScanLimitPushdown`
(`src/d1_attach.cpp:640-708`).  TOP_N over a `d1_scan` chain: store the
row cap in the bind data, keep the node, recurse into the (updated) child
— the store-then-recurse of the source is the fused `optimizeSetChain`.
TOP_N otherwise: recurse into the child, keep the node.  LIMIT over a
`d1_scan` chain with a constant value: store it and replace the node by
its child without further recursion; with a non-constant value, or over a
non-`d1_scan` chain: recurse into the child, keep the node.  Every other
operator: recurse into all children. -/
def OptimizeD1ScanLimitPushdown : LogicalOp → LogicalOp
  | .topN l o c =>
    if chainIsD1Get c then .topN l o (optimizeSetChain l c)
    else .topN l o (OptimizeD1ScanLimitPushdown c)
  | .limit v c =>
    if chainIsD1Get c then
      match v with
      | .constantValue k => setChainLimit k c
      | .expressionValue => .limit .expressionValue (OptimizeD1ScanLimitPushdown c)
    else .limit v (OptimizeD1ScanLimitPushdown c)
  | .projection c => .projection (OptimizeD1ScanLimitPushdown c)
  | .filter c => .filter (OptimizeD1ScanLimitPushdown c)
  | .get f b => .get f b
  | .otherOp cs => .otherOp (optimizeChildren cs)
termination_by p => (opSize p, 0)
decreasing_by
all_goals (simp [opSize, opsSize, Prod.lex_def]; try omega)

/-- Fusion of `OptimizeD1ScanLimitPushdown ∘ setChainLimit n` (the source
stores `bind_data.limit` through a reference and then recurses over the
mutated plan); `optimizeSetChain_eq` below proves the fusion correct. -/
def optimizeSetChain (n : Nat) : LogicalOp → LogicalOp
  | .projection c => .projection (optimizeSetChain n c)
  | .filter c => .filter (optimizeSetChain n c)
  | .get f _ => .get f n
  | p => OptimizeD1ScanLimitPushdown p
termination_by p => (opSize p, 1)
decreasing_by
all_goals (simp [opSize, opsSize, Prod.lex_def]; try omega)

/-- The recursion into all children (`src/d1_attach.cpp:704-707`). -/
def optimizeChildren : List LogicalOp → List LogicalOp
  | [] => []
  | c :: cs => OptimizeD1ScanLimitPushdown c :: optimizeChildren cs
termination_by cs => (opsSize cs, 0)
decreasing_by
all_goals (simp [opSize, opsSize, Prod.lex_def]; try omega)

end

mutual

/-- Plans containing a LIMIT node anywhere (root included). -/
def hasLimit : LogicalOp → Bool
  | .topN _ _ c => hasLimit c
  | .limit _ _ => true
  | .projection c => hasLimit c
  | .filter c => hasLimit c
  | .get _ _ => false
  | .otherOp cs => hasLimitList cs
termination_by p => opSize p
decreasing_by
all_goals (simp [opSize, opsSize]; try omega)

/-- List version of `hasLimit`. -/
def hasLimitList : List LogicalOp → Bool
  | [] => false
  | c :: cs => hasLimit c || hasLimitList cs
termination_by cs => opsSize cs
decreasing_by
all_goals (simp [opSize, opsSize]; try omega)

end

mutual

/-- No LIMIT node nested strictly below a LIMIT or TOP_N node: the
hypothesis of the amended idempotence claim. -/
def noNestedLimit : LogicalOp → Bool
  | .topN _ _ c => !hasLimit c
  | .limit _ c => !hasLimit c
  | .projection c => noNestedLimit c
  | .filter c => noNestedLimit c
  | .get _ _ => true
  | .otherOp cs => noNestedLimitList cs
termination_by p => opSize p
decreasing_by
all_goals (simp [opSize, opsSize]; try omega)

/-- List version of `noNestedLimit`. -/
def noNestedLimitList : List LogicalOp → Bool
  | [] => true
  | c :: cs => noNestedLimit c && noNestedLimitList cs
termination_by cs => opsSize cs
decreasing_by
all_goals (simp [opSize, opsSize]; try omega)

end

/-! ### Transaction commit (`D1Transaction::Commit`,
`src/storage/d1_transaction.cpp:25-48`) -/

/-- Modelled from the spec: the per-statement entry of the batch result
inspected by `D1Transaction::Commit` (`result.results[i].success` /
`.error`); the implementation of `D1ExecuteBatch` and its result type are
not among the sources, only their use in the commit path is. -/
structure D1StatementResult where
  success : Bool
  error : String
  deriving DecidableEq, Repr

/-- Modelled from the spec: the result of the batched remote write call
(`D1ExecuteBatch`): a batch-level success flag and error, plus
per-statement results.  Only the fields read by `D1Transaction::Commit`
are modelled. -/
structure D1BatchResult where
  success : Bool
  error : String
  results : List D1StatementResult
  deriving DecidableEq, Repr

/-- Transaction state (`D1Transaction`, `src/include/storage/d1_transaction.hpp`):
configuration, the ordered buffer of pending write statements, and the
started flag. -/
structure D1Transaction where
  config : D1Config
  buffered_statements : List String
  is_started : Bool
  deriving DecidableEq, Repr

/-- The per-statement inspection loop of `Commit`
(`src/storage/d1_transaction.cpp:38-42`): index and error text of the
first failing statement, if any. -/
def firstFailedStatement : Nat → List D1StatementResult → Option (Nat × String)
  | _, [] => none
  | i, r :: rest =>
    if r.success then firstFailedStatement (i + 1) rest else some (i, r.error)

/-- Outcome of one `Commit` call: the transaction state after the call
(unchanged when an exception propagates), the thrown error if any, and
the batch calls issued. -/
structure CommitResult where
  txn : D1Transaction
  error : Option String
  calls : List (List String)
  deriving DecidableEq, Repr

/-- Shallow embedding of `D1Transaction::Commit`
(`src/storage/d1_transaction.cpp:25-48`); `execBatch` is the oracle for
`D1ExecuteBatch`.  Not started: no-op.  Empty buffer: just clears the
started flag.  Otherwise one batch call with the whole buffer: a
batch-level failure throws (buffer and started flag untouched); a first
failing per-statement result throws likewise; on full success the buffer
is cleared and the started flag dropped. -/
def D1Transaction.Commit (t : D1Transaction)
    (execBatch : D1Config → List String → D1BatchResult) : CommitResult :=
  if !t.is_started then { txn := t, error := none, calls := [] }
  else if t.buffered_statements.isEmpty then
    { txn := { t with is_started := false }, error := none, calls := [] }
  else
    let result := execBatch t.config t.buffered_statements
    if !result.success then
      { txn := t, error := some ("D1 batch commit failed: " ++ result.error),
        calls := [t.buffered_statements] }
    else
      match firstFailedStatement 0 result.results with
      | some (i, e) =>
        { txn := t,
          error := some ("D1 statement " ++ toString i ++ " failed: " ++ e),
          calls := [t.buffered_statements] }
      | none =>
        { txn := { t with is_started := false, buffered_statements := [] },
          error := none, calls := [t.buffered_statements] }

/-! ### Claim-side definitions and concrete example values -/

/-- The type-mapping priority order as the original claim states it
(INT; CHAR/CLOB/TEXT; BOOL; DATE; TIME; BLOB or empty; REAL/FLOA/DOUB;
otherwise text), for comparison against the code's order. -/
def mapTypeSpecClaimed (remoteTypeString : String) : LogicalTypeId :=
  let s := remoteTypeString.data
  if containsCI s "INT".data then .bigint
  else if containsCI s "CHAR".data || containsCI s "CLOB".data ||
      containsCI s "TEXT".data then .varchar
  else if containsCI s "BOOL".data then .boolean
  else if containsCI s "DATE".data then .date
  else if containsCI s "TIME".data then .timestamp
  else if containsCI s "BLOB".data || s.isEmpty then .blob
  else if containsCI s "REAL".data || containsCI s "FLOA".data ||
      containsCI s "DOUB".data then .double
  else .varchar

/-- Example endpoint configuration. -/
def exConfig : D1Config :=
  { account_id := "acct", api_token := "token", database_id := "db-id",
    database_name := "demo" }

/-- Example remote row. -/
def exRow : RowMap := [("id", "2"), ("name", "Bo")]

/-- Example successful one-row query result. -/
def exResult : D1QueryResult :=
  { success := true, meta := defaultD1QueryMeta, results := [exRow],
    column_order := ["id", "name"], error := "" }

/-- Example scan bind state before execution. -/
def exBind : D1ScanBindData :=
  { config := exConfig, table_name := "users",
    column_names := ["id", "name"], column_types := [.bigint, .varchar],
    result := defaultD1QueryResult, executed := false,
    where_clause := "id = 2", limit := 5 }

/-- Example scan bind state after execution (memoized result). -/
def exBindExecuted : D1ScanBindData :=
  { exBind with executed := true, result := exResult }

/-- Example scan global state requesting both columns. -/
def exState : D1ScanGlobalState := { current_row := 0, column_ids := [0, 1] }

/-- Example query oracle always returning `exResult`. -/
def exQuery : D1Config → String → D1QueryResult := fun _ _ => exResult

/-- Example transaction with three buffered writes. -/
def exTxn : D1Transaction :=
  { config := exConfig,
    buffered_statements :=
      ["INSERT INTO t VALUES (1)", "INSERT INTO t VALUES (2)",
       "INSERT INTO t VALUES (3)"],
    is_started := true }

/-- Example batch oracle: batch-level success, statement 2 of 3 failing. -/
def exBatchStmt2Fails : D1Config → List String → D1BatchResult := fun _ _ =>
  { success := true, error := "",
    results := [{ success := true, error := "" },
                { success := false, error := "UNIQUE constraint failed" },
                { success := true, error := "" }] }

/-- Example translatable comparison `id = 2`. -/
def exCmp : ScalarExpr :=
  .boundComparison .equal (.boundColumnRef "id") (.boundConstant (.bigintValue 2))

/-- Example second translatable comparison `3 < id` (reversed operands). -/
def exCmpRev : ScalarExpr :=
  .boundComparison .lessThan (.boundConstant (.bigintValue 3)) (.boundColumnRef "id")

/-- Example plan: constant LIMIT over a projection over a `d1_scan` GET. -/
def exPlanLimit : LogicalOp :=
  .limit (.constantValue 5) (.projection (.get "d1_scan" 0))

/-- Example plan refuting idempotence: a constant LIMIT directly over
another constant LIMIT over a `d1_scan` GET. -/
def exPlanNestedLimit : LogicalOp :=
  .limit (.constantValue 1) (.limit (.constantValue 2) (.get "d1_scan" 0))

/-! ## Development: substring search vs case-insensitive search -/

theorem containsSub_nil (pat : List Char) :
    containsSub [] pat = startsWith [] pat := by
  by_cases h : startsWith [] pat <;> simp [containsSub, findSub, h]

theorem containsSub_cons (c : Char) (t pat : List Char) :
    containsSub (c :: t) pat = (startsWith (c :: t) pat || containsSub t pat) := by
  by_cases h : startsWith (c :: t) pat <;>
    simp [containsSub, findSub, h, Option.isSome_map]

theorem containsCI_nil (pat : List Char) :
    containsCI [] pat = startsWithCI [] pat := by
  by_cases h : startsWithCI [] pat <;> simp [containsCI, h]

theorem containsCI_cons (c : Char) (t pat : List Char) :
    containsCI (c :: t) pat = (startsWithCI (c :: t) pat || containsCI t pat) := by
  by_cases h : startsWithCI (c :: t) pat <;> simp [containsCI, h]

theorem startsWith_toUpper (pat : List Char) (hpat : ∀ b ∈ pat, b.toUpper = b) :
    ∀ hay : List Char, startsWith (hay.map Char.toUpper) pat = startsWithCI hay pat := by
  induction pat with
  | nil => intro hay; cases hay <;> simp [startsWith, startsWithCI]
  | cons b bs ih =>
    intro hay
    cases hay with
    | nil => simp [startsWith, startsWithCI]
    | cons h hs =>
      have hb : b.toUpper = b := hpat b (by simp)
      have ih' := ih (fun x hx => hpat x (by simp [hx])) hs
      simp [startsWith, startsWithCI, charEqCI, ih', hb]

theorem containsSub_toUpper (pat : List Char) (hpat : ∀ b ∈ pat, b.toUpper = b)
    (hay : List Char) :
    containsSub (hay.map Char.toUpper) pat = containsCI hay pat := by
  induction hay with
  | nil => rw [List.map_nil, containsSub_nil, containsCI_nil,
      ← startsWith_toUpper pat hpat []]; rfl
  | cons c t ih =>
    rw [List.map_cons, containsSub_cons, containsCI_cons, ih,
      ← startsWith_toUpper pat hpat (c :: t), List.map_cons]

/-! ## Claim C5 — type-mapping priority order -/

/-- Claim C5, counterexample: the claimed priority order (BOOL, DATE and
TIME checked before BLOB/empty and REAL/FLOA/DOUB) disagrees with the
code on the input `"BOOLBLOB"`: the code checks BLOB before BOOL and maps
it to binary, while the claimed order maps it to boolean. -/
theorem SQLiteTypeToDuckDB_claimed_order_cex :
    SQLiteTypeToDuckDB "BOOLBLOB" = LogicalTypeId.blob ∧
    mapTypeSpecClaimed "BOOLBLOB" = LogicalTypeId.boolean ∧
    SQLiteTypeToDuckDB "BOOLBLOB" ≠ mapTypeSpecClaimed "BOOLBLOB" := by
  refine ⟨by decide, by decide, by decide⟩

/-- Claim C5 (amended): `mapType` applies case-insensitive substring rules
in this fixed priority order: contains INT → 64-bit integer; else
CHAR/CLOB/TEXT → text; else BLOB or empty → binary; else REAL/FLOA/DOUB →
double; else BOOL → boolean; else DATE → date; else TIME → timestamp;
otherwise text. -/
theorem SQLiteTypeToDuckDB_priority_order (s : String) :
    SQLiteTypeToDuckDB s = mapTypeSpec s := by
  have hE : (s.data.map Char.toUpper).isEmpty = s.data.isEmpty := by
    cases s.data <;> simp
  simp only [SQLiteTypeToDuckDB, mapTypeSpec, hE,
    containsSub_toUpper "INT".data (by decide) s.data,
    containsSub_toUpper "CHAR".data (by decide) s.data,
    containsSub_toUpper "CLOB".data (by decide) s.data,
    containsSub_toUpper "TEXT".data (by decide) s.data,
    containsSub_toUpper "BLOB".data (by decide) s.data,
    containsSub_toUpper "REAL".data (by decide) s.data,
    containsSub_toUpper "FLOA".data (by decide) s.data,
    containsSub_toUpper "DOUB".data (by decide) s.data,
    containsSub_toUpper "BOOL".data (by decide) s.data,
    containsSub_toUpper "DATE".data (by decide) s.data,
    containsSub_toUpper "TIME".data (by decide) s.data]

/-! ## Claim C7 — response parser on heterogeneous rows -/

/-- Claim C7: on the response text
`{"success":true,"results":[{"a":"1","b":"x"},{"a":"2","c":"y"}]}` the
parser yields success, column order `[a, b, c]` (keys in first-seen order,
union across rows), and the second row's cell for column `b` is absent
and materializes as null, not as an empty string. -/
theorem ParseD1Response_heterogeneous_rows :
    (ParseD1Response "\x7b\"success\":true,\"results\":[\x7b\"a\":\"1\",\"b\":\"x\"\x7d,\x7b\"a\":\"2\",\"c\":\"y\"\x7d]\x7d").success = true ∧
    (ParseD1Response "\x7b\"success\":true,\"results\":[\x7b\"a\":\"1\",\"b\":\"x\"\x7d,\x7b\"a\":\"2\",\"c\":\"y\"\x7d]\x7d").column_order = ["a", "b", "c"] ∧
    (ParseD1Response "\x7b\"success\":true,\"results\":[\x7b\"a\":\"1\",\"b\":\"x\"\x7d,\x7b\"a\":\"2\",\"c\":\"y\"\x7d]\x7d").results =
      [[("a", "1"), ("b", "x")], [("a", "2"), ("c", "y")]] ∧
    rowFind ((ParseD1Response "\x7b\"success\":true,\"results\":[\x7b\"a\":\"1\",\"b\":\"x\"\x7d,\x7b\"a\":\"2\",\"c\":\"y\"\x7d]\x7d").results.getD 1 []) "b" = none ∧
    scanOutputCell ["a", "b", "c"] [.varchar, .varchar, .varchar]
      ((ParseD1Response "\x7b\"success\":true,\"results\":[\x7b\"a\":\"1\",\"b\":\"x\"\x7d,\x7b\"a\":\"2\",\"c\":\"y\"\x7d]\x7d").results.getD 1 []) 1 = .nullValue ∧
    CellValue.nullValue ≠ CellValue.varcharValue "" := by
  refine ⟨by decide, by decide, by decide, by decide, by decide, by decide⟩

/-! ## Claim C6 — null vs empty string in parsed rows -/

/-- Claim C6, counterexample: a row whose single cell is the JSON value
`null` parses to exactly the same representation as a row whose cell is
the empty string `""` — the key is present and maps to `""` in both — so
a null cell can NOT be distinguished from an empty-string cell. -/
theorem ParseResultRow_null_indistinguishable :
    ParseResultRow "\x7b\"a\":null\x7d".data [] = ([("a", "")], ["a"]) ∧
    ParseResultRow "\x7b\"a\":\"\"\x7d".data [] = ([("a", "")], ["a"]) ∧
    ParseResultRow "\x7b\"a\":null\x7d".data [] =
      ParseResultRow "\x7b\"a\":\"\"\x7d".data [] := by
  refine ⟨by decide, by decide, by decide⟩

/-- Claim C6 (amended): in every parsed query result, a cell whose remote
JSON value was null is represented by the empty string — the same
representation as an empty-string remote value, so the two are NOT
distinguishable — and at scan time an empty-string cell materializes as
SQL NULL. -/
theorem null_parses_as_empty_string :
    (∀ rest : List Char, parseValue ('n' :: 'u' :: 'l' :: 'l' :: rest) = ("", rest)) ∧
    (∀ rest : List Char, parseValue ('"' :: '"' :: rest) = ("", rest)) ∧
    (∀ (ns : List String) (ts : List LogicalTypeId) (row : RowMap) (i : Nat),
      rowFind row (ns.getD i "") = some "" →
      scanOutputCell ns ts row i = .nullValue) := by
  refine ⟨fun rest => by simp [parseValue], fun rest => by simp [parseValue, scanStringSplit], ?_⟩
  intro ns ts row i h
  unfold scanOutputCell
  by_cases hlen : ns.length ≤ i
  · simp [hlen]
  · have h' : rowFind row (ns[i]?.getD "") = some "" := by
      simpa [List.getD] using h
    simp [hlen, h']

/-- Witness for the amended C6 at a concrete row. -/
theorem null_parses_as_empty_string_witness :
    parseValue ('n' :: 'u' :: 'l' :: 'l' :: []) = ("", []) ∧
    rowFind [("id", "")] "id" = some "" ∧
    scanOutputCell ["id"] [.bigint] [("id", "")] 0 = .nullValue :=
  ⟨null_parses_as_empty_string.1 [], by decide,
   null_parses_as_empty_string.2.2 ["id"] [.bigint] [("id", "")] 0 (by decide)⟩

/-! ## Claim C8 — conversion errors recovered as null -/

/-- Claim C8: during scan streaming, a text cell that fails to parse into
its mapped numeric type (64-bit integer or double) yields a null cell and
never fails the scan (a pull on a memoized result never errors), and the
well-formed double text `"3.14"` parses back to the value it denotes. -/
theorem conversion_errors_yield_null :
    (∀ s, stollOpt s = none → convertCellValue .bigint s = .nullValue) ∧
    (∀ s, stodOpt s = none → convertCellValue .double s = .nullValue) ∧
    convertCellValue .double "3.14" = .doubleValue ((157 : ℚ) / 50) ∧
    (∀ (bind : D1ScanBindData) (state : D1ScanGlobalState)
      (query : D1Config → String → D1QueryResult), bind.executed = true →
      (D1ScanFunction bind state query).error = none) := by
  refine ⟨?_, ?_, ?_, ?_⟩
  · intro s h; simp [convertCellValue, h]
  · intro s h; simp [convertCellValue, h]
  · simp [convertCellValue, stodOpt, parseSign, digitsToNat, isSpaceChar]
    norm_num
  · intro bind state query h
    simp [D1ScanFunction, h]

/-- Witness for C8 at concrete inputs. -/
theorem conversion_errors_yield_null_witness :
    stollOpt "abc" = none ∧
    convertCellValue .bigint "abc" = .nullValue ∧
    (D1ScanFunction exBindExecuted exState exQuery).error = none :=
  ⟨by decide, conversion_errors_yield_null.1 "abc" (by decide),
   conversion_errors_yield_null.2.2.2 exBindExecuted exState exQuery (by decide)⟩

/-! ## Claim C4 — at-most-once remote execution of a scan -/

/-- Claim C4: the first row pull (executed flag still down) issues exactly
one remote call with `SELECT * FROM table`, the WHERE accumulator
appended when non-empty and the LIMIT when positive, memoizes the full
query result and sets the executed flag; a pull with the flag set issues
no remote call and leaves the bind state untouched; once the cursor has
reached the memoized result's end a pull returns zero rows. -/
theorem D1ScanFunction_executes_once (bind : D1ScanBindData)
    (state : D1ScanGlobalState) (query : D1Config → String → D1QueryResult) :
    (bind.executed = false →
      (D1ScanFunction bind state query).calls =
        ["SELECT * FROM " ++ bind.table_name
          ++ (if !(bind.where_clause == "") then " WHERE " ++ bind.where_clause else "")
          ++ (if 0 < bind.limit then " LIMIT " ++ toString bind.limit else "")] ∧
      (D1ScanFunction bind state query).bind_data.executed = true ∧
      (D1ScanFunction bind state query).bind_data.result =
        query bind.config
          ("SELECT * FROM " ++ bind.table_name
            ++ (if !(bind.where_clause == "") then " WHERE " ++ bind.where_clause else "")
            ++ (if 0 < bind.limit then " LIMIT " ++ toString bind.limit else ""))) ∧
    (bind.executed = true →
      (D1ScanFunction bind state query).calls = [] ∧
      (D1ScanFunction bind state query).bind_data = bind) ∧
    (bind.executed = true → bind.result.results.length ≤ state.current_row →
      (D1ScanFunction bind state query).output = []) := by
  refine ⟨?_, ?_, ?_⟩
  · intro h
    refine ⟨?_, ?_, ?_⟩ <;>
      (simp only [D1ScanFunction, h, Bool.not_false, if_true]
       split <;> (try split) <;> (try split) <;> simp)
  · intro h
    simp [D1ScanFunction, h]
  · intro h hc
    simp [D1ScanFunction, h, emitScanRows, List.drop_eq_nil_of_le hc]

/-- Witness for C4 at a concrete bind state (WHERE and LIMIT both set). -/
theorem D1ScanFunction_executes_once_witness :
    (D1ScanFunction exBind exState exQuery).calls =
      ["SELECT * FROM users WHERE id = 2 LIMIT 5"] ∧
    (D1ScanFunction exBind exState exQuery).bind_data.executed = true ∧
    (D1ScanFunction exBindExecuted exState exQuery).calls = [] := by
  have h := D1ScanFunction_executes_once exBind exState exQuery
  have h' := D1ScanFunction_executes_once exBindExecuted exState exQuery
  refine ⟨?_, (h.1 (by decide)).2.1, (h'.2.1 (by decide)).1⟩
  have h1 := (h.1 (by decide)).1
  rw [h1]; decide

/-! ## Claim C1 — commit of a non-empty write buffer -/

/-- Claim C1: committing a started transaction with a non-empty buffer
sends the buffer as exactly one batch call; a batch-level failure
surfaces the batch error and leaves the transaction (buffer included)
untouched; a per-statement failure surfaces that statement's error, again
leaving the buffer untouched; only when every statement succeeds is the
buffer cleared (and no error raised). -/
theorem D1Transaction_Commit_spec (t : D1Transaction)
    (execBatch : D1Config → List String → D1BatchResult)
    (hs : t.is_started = true) (hb : t.buffered_statements ≠ []) :
    (D1Transaction.Commit t execBatch).calls = [t.buffered_statements] ∧
    ((execBatch t.config t.buffered_statements).success = false →
      (D1Transaction.Commit t execBatch).error =
        some ("D1 batch commit failed: " ++
          (execBatch t.config t.buffered_statements).error) ∧
      (D1Transaction.Commit t execBatch).txn = t) ∧
    (∀ i e, (execBatch t.config t.buffered_statements).success = true →
      firstFailedStatement 0 (execBatch t.config t.buffered_statements).results =
        some (i, e) →
      (D1Transaction.Commit t execBatch).error =
        some ("D1 statement " ++ toString i ++ " failed: " ++ e) ∧
      (D1Transaction.Commit t execBatch).txn = t) ∧
    ((execBatch t.config t.buffered_statements).success = true →
      firstFailedStatement 0 (execBatch t.config t.buffered_statements).results =
        none →
      (D1Transaction.Commit t execBatch).error = none ∧
      (D1Transaction.Commit t execBatch).txn.buffered_statements = []) := by
  have hb' : t.buffered_statements.isEmpty = false := by
    simpa [List.isEmpty_iff] using hb
  unfold D1Transaction.Commit
  simp only [hs, hb', Bool.not_true, Bool.false_eq_true, if_false]
  refine ⟨?_, ?_, ?_, ?_⟩
  · split <;> [skip; split] <;> simp
  · intro hf; simp [hf]
  · intro i e hsucc hfirst; simp [hsucc, hfirst]
  · intro hsucc hfirst; simp [hsucc, hfirst]

/-- Witness for C1: three buffered writes, statement 2 of 3 failing. -/
theorem D1Transaction_Commit_spec_witness :
    (D1Transaction.Commit exTxn exBatchStmt2Fails).calls =
      [exTxn.buffered_statements] ∧
    (D1Transaction.Commit exTxn exBatchStmt2Fails).error =
      some "D1 statement 1 failed: UNIQUE constraint failed" ∧
    (D1Transaction.Commit exTxn exBatchStmt2Fails).txn = exTxn := by
  have h := D1Transaction_Commit_spec exTxn exBatchStmt2Fails (by decide) (by decide)
  have h2 := h.2.2.1 1 "UNIQUE constraint failed" (by decide) (by decide)
  exact ⟨h.1, by rw [h2.1]; decide, h2.2⟩

/-! ## Development: pushdown loop characterization -/

theorem pushdownLoop_fst (fs : List ScalarExpr) :
    ∀ i, (pushdownLoop i fs).1 = fs.filterMap filterDecision := by
  induction fs with
  | nil => intro i; simp [pushdownLoop]
  | cons f t ih =>
    intro i
    simp only [pushdownLoop, List.filterMap_cons]
    cases h : filterDecision f <;> simp [h, ih (i + 1)]

theorem pushdownLoop_snd_shift (fs : List ScalarExpr) :
    ∀ i, (pushdownLoop (i + 1) fs).2 = ((pushdownLoop i fs).2).map (· + 1) := by
  induction fs with
  | nil => intro i; simp [pushdownLoop]
  | cons f t ih =>
    intro i
    simp only [pushdownLoop]
    cases h : filterDecision f <;> simp [h, ih (i + 1)]

theorem foldr_eraseIdx_shift (js : List Nat) (x : ScalarExpr) (l : List ScalarExpr) :
    (js.map (· + 1)).foldr (fun i acc => acc.eraseIdx i) (x :: l) =
      x :: js.foldr (fun i acc => acc.eraseIdx i) l := by
  induction js with
  | nil => rfl
  | cons j t ih => simp [ih, List.eraseIdx]

theorem eraseIndicesRev_eq_foldr (filters : List ScalarExpr) (idxs : List Nat) :
    eraseIndicesRev filters idxs =
      idxs.foldr (fun i acc => acc.eraseIdx i) filters := by
  simp [eraseIndicesRev, List.foldl_reverse]

theorem pushdown_residual (fs : List ScalarExpr) :
    eraseIndicesRev fs (pushdownLoop 0 fs).2 =
      fs.filter (fun f => (filterDecision f).isNone) := by
  rw [eraseIndicesRev_eq_foldr]
  induction fs with
  | nil => rfl
  | cons f t ih =>
    simp only [pushdownLoop]
    cases h : filterDecision f with
    | none =>
      rw [show (0 : Nat) + 1 = 0 + 1 from rfl] at *
      simp only [pushdownLoop_snd_shift t 0, foldr_eraseIdx_shift, ih]
      simp [List.filter_cons, h]
    | some sql =>
      simp only [pushdownLoop_snd_shift t 0, List.foldr_cons, foldr_eraseIdx_shift]
      simp [List.eraseIdx, ih, List.filter_cons, h]

theorem convertChildrenLoop_all (cs : List ScalarExpr)
    (h : ∀ c ∈ cs, ExpressionToSQL c ≠ "") :
    convertChildrenLoop cs = some (cs.map ExpressionToSQL) := by
  induction cs with
  | nil => rfl
  | cons c t ih =>
    have hc : ¬(ExpressionToSQL c == "") = true := by
      simpa using h c (by simp)
    simp only [convertChildrenLoop, if_neg hc,
      ih (fun x hx => h x (by simp [hx])), List.map_cons]

theorem convertChildrenLoop_fail (cs : List ScalarExpr)
    (h : ∃ c ∈ cs, ExpressionToSQL c = "") :
    convertChildrenLoop cs = none := by
  induction cs with
  | nil => simp at h
  | cons c t ih =>
    rcases h with ⟨x, hx, hsql⟩
    rcases List.mem_cons.mp hx with rfl | hx'
    · simp [convertChildrenLoop, hsql]
    · simp only [convertChildrenLoop]
      split
      · rfl
      · rw [ih ⟨x, hx', hsql⟩]

theorem filterDecision_conj_all (cs : List ScalarExpr) (hne : cs ≠ [])
    (h : ∀ c ∈ cs, ExpressionToSQL c ≠ "") :
    filterDecision (.boundConjunction .conjunctionAnd cs) =
      some ("(" ++ joinWithAnd (cs.map ExpressionToSQL) ++ ")") := by
  have hmap : (cs.map ExpressionToSQL).isEmpty = false := by
    cases cs with
    | nil => exact absurd rfl hne
    | cons a t => simp
  simp [filterDecision, ExpressionToSQL, convertChildrenLoop_all cs h, hmap]

theorem filterDecision_conj_fail (cs : List ScalarExpr)
    (h : ∃ c ∈ cs, ExpressionToSQL c = "") :
    filterDecision (.boundConjunction .conjunctionAnd cs) = none := by
  simp [filterDecision, ExpressionToSQL, convertChildrenLoop_fail cs h]

/-! ## Claim C2 — all-or-nothing AND-conjunction pushdown -/

/-- Claim C2: a top-level AND conjunction filter is pushed down (its SQL
appended to the WHERE accumulator, the filter removed from the residual
list) iff every child individually translates as a column/constant
comparison; one failing child leaves the whole conjunction in the
residual list (no partial AND pushdown). -/
theorem D1ScanPushdownComplexFilter_and_conjunction (bind : D1ScanBindData)
    (fs cs : List ScalarExpr) (hne : cs ≠ [])
    (hmem : ScalarExpr.boundConjunction .conjunctionAnd cs ∈ fs) :
    ((∀ c ∈ cs, ExpressionToSQL c ≠ "") →
      (ScalarExpr.boundConjunction .conjunctionAnd cs ∉
          (D1ScanPushdownComplexFilter bind fs).2 ∧
        ∃ conds, (D1ScanPushdownComplexFilter bind fs).1.where_clause =
            bind.where_clause ++ joinWithAnd conds ∧
          ("(" ++ joinWithAnd (cs.map ExpressionToSQL) ++ ")") ∈ conds)) ∧
    ((∃ c ∈ cs, ExpressionToSQL c = "") →
      ScalarExpr.boundConjunction .conjunctionAnd cs ∈
        (D1ScanPushdownComplexFilter bind fs).2) := by
  constructor
  · intro hall
    have hdec := filterDecision_conj_all cs hne hall
    constructor
    · intro hcontra
      have h2 : (D1ScanPushdownComplexFilter bind fs).2 =
          fs.filter (fun f => (filterDecision f).isNone) := by
        simp only [D1ScanPushdownComplexFilter]
        exact pushdown_residual fs
      rw [h2, List.mem_filter] at hcontra
      rw [hdec] at hcontra
      simp at hcontra
    · refine ⟨fs.filterMap filterDecision, ?_, ?_⟩
      · have hin : ("(" ++ joinWithAnd (cs.map ExpressionToSQL) ++ ")") ∈
            fs.filterMap filterDecision :=
          List.mem_filterMap.mpr ⟨_, hmem, hdec⟩
        have hnonempty : (fs.filterMap filterDecision).isEmpty = false := by
          cases hfm : fs.filterMap filterDecision with
          | nil => rw [hfm] at hin; cases hin
          | cons a t => rfl
        simp only [D1ScanPushdownComplexFilter, pushdownLoop_fst fs 0, hnonempty,
          Bool.not_false, if_true]
      · exact List.mem_filterMap.mpr ⟨_, hmem, hdec⟩
  · intro hfail
    have hdec := filterDecision_conj_fail cs hfail
    have h2 : (D1ScanPushdownComplexFilter bind fs).2 =
        fs.filter (fun f => (filterDecision f).isNone) := by
      simp only [D1ScanPushdownComplexFilter]
      exact pushdown_residual fs
    rw [h2, List.mem_filter, hdec]
    exact ⟨hmem, rfl⟩

/-- Witness for C2: a two-child AND conjunction over `id = 2` and
`3 < id`, both translatable, pushed from a singleton filter list; and the
same conjunction extended with an untranslatable child, not pushed. -/
theorem D1ScanPushdownComplexFilter_and_conjunction_witness :
    (ScalarExpr.boundConjunction .conjunctionAnd [exCmp, exCmpRev] ∉
      (D1ScanPushdownComplexFilter exBind
        [.boundConjunction .conjunctionAnd [exCmp, exCmpRev]]).2) ∧
    (ScalarExpr.boundConjunction .conjunctionAnd [exCmp, .otherExpr] ∈
      (D1ScanPushdownComplexFilter exBind
        [.boundConjunction .conjunctionAnd [exCmp, .otherExpr]]).2) := by
  have h1 := D1ScanPushdownComplexFilter_and_conjunction exBind
    [.boundConjunction .conjunctionAnd [exCmp, exCmpRev]] [exCmp, exCmpRev]
    (by simp) (List.Mem.head _)
  have h2 := D1ScanPushdownComplexFilter_and_conjunction exBind
    [.boundConjunction .conjunctionAnd [exCmp, .otherExpr]] [exCmp, .otherExpr]
    (by simp) (List.Mem.head _)
  exact ⟨(h1.1 (by decide)).1, h2.2 ⟨.otherExpr, by simp, by decide⟩⟩

/-! ## Development: plan rewriter -/

theorem opSize_pos (c : LogicalOp) : 1 ≤ opSize c := by
  cases c <;> simp [opSize]

theorem opSize_le_opsSize (x : LogicalOp) (cs : List LogicalOp) (hx : x ∈ cs) :
    opSize x ≤ opsSize cs := by
  induction cs with
  | nil => cases hx
  | cons c t ih =>
    cases hx with
    | head => simp [opsSize]; omega
    | tail _ h => have := ih h; simp [opsSize]; omega

/-- Member-wise structural induction principle for plans (proved by strong
induction on `opSize`, since the nested `List` field blocks the default
recursor). -/
theorem LogicalOp.recMem (P : LogicalOp → Prop)
    (htopN : ∀ l o c, P c → P (.topN l o c))
    (hlimit : ∀ v c, P c → P (.limit v c))
    (hprojection : ∀ c, P c → P (.projection c))
    (hfilter : ∀ c, P c → P (.filter c))
    (hget : ∀ f b, P (.get f b))
    (hother : ∀ cs, (∀ c ∈ cs, P c) → P (.otherOp cs)) :
    ∀ c, P c := by
  have key : ∀ N c, opSize c ≤ N → P c := by
    intro N
    induction N with
    | zero => intro c hc; exact absurd hc (by have := opSize_pos c; omega)
    | succ N ih =>
      intro c hc
      cases c with
      | topN l o ch => exact htopN l o ch (ih ch (by simp [opSize] at hc; omega))
      | limit v ch => exact hlimit v ch (ih ch (by simp [opSize] at hc; omega))
      | projection ch => exact hprojection ch (ih ch (by simp [opSize] at hc; omega))
      | filter ch => exact hfilter ch (ih ch (by simp [opSize] at hc; omega))
      | get f b => exact hget f b
      | otherOp cs =>
        refine hother cs (fun x hx => ih x ?_)
        have h1 := opSize_le_opsSize x cs hx
        simp [opSize] at hc
        omega
  intro c
  exact key (opSize c) c le_rfl

theorem chainIsD1Get_topN (l o : Nat) (c : LogicalOp) :
    chainIsD1Get (.topN l o c) = false := by
  simp [chainIsD1Get, chainTarget]

theorem chainIsD1Get_limit (v : LimitVal) (c : LogicalOp) :
    chainIsD1Get (.limit v c) = false := by
  simp [chainIsD1Get, chainTarget]

theorem chainIsD1Get_otherOp (cs : List LogicalOp) :
    chainIsD1Get (.otherOp cs) = false := by
  simp [chainIsD1Get, chainTarget]

theorem chainIsD1Get_projection (c : LogicalOp) :
    chainIsD1Get (.projection c) = chainIsD1Get c := by
  simp [chainIsD1Get, chainTarget]

theorem chainIsD1Get_filter (c : LogicalOp) :
    chainIsD1Get (.filter c) = chainIsD1Get c := by
  simp [chainIsD1Get, chainTarget]

/-- The fusion in the definition of the rewriter is correct:
`optimizeSetChain n` is `OptimizeD1ScanLimitPushdown` after writing `n`
into the chain's GET. -/
theorem optimizeSetChain_eq (p : LogicalOp) :
    ∀ n, optimizeSetChain n p = OptimizeD1ScanLimitPushdown (setChainLimit n p) := by
  induction p using LogicalOp.recMem with
  | htopN l o c _ => intro n; simp [optimizeSetChain, setChainLimit]
  | hlimit v c _ => intro n; simp [optimizeSetChain, setChainLimit]
  | hprojection c ih => intro n; simp [optimizeSetChain, setChainLimit,
      OptimizeD1ScanLimitPushdown, ih n]
  | hfilter c ih => intro n; simp [optimizeSetChain, setChainLimit,
      OptimizeD1ScanLimitPushdown, ih n]
  | hget f b => intro n; simp [optimizeSetChain, setChainLimit,
      OptimizeD1ScanLimitPushdown]
  | hother cs _ => intro n; simp [optimizeSetChain, setChainLimit]

/-- A plan whose chain reaches a `d1_scan` GET is a pure
projection/filter chain, and the rewriter leaves it unchanged. -/
theorem optimize_pure_chain (p : LogicalOp) :
    chainIsD1Get p = true → OptimizeD1ScanLimitPushdown p = p := by
  induction p using LogicalOp.recMem with
  | htopN l o c _ => intro h; rw [chainIsD1Get_topN] at h; cases h
  | hlimit v c _ => intro h; rw [chainIsD1Get_limit] at h; cases h
  | hprojection c ih =>
    intro h; rw [chainIsD1Get_projection] at h
    simp [OptimizeD1ScanLimitPushdown, ih h]
  | hfilter c ih =>
    intro h; rw [chainIsD1Get_filter] at h
    simp [OptimizeD1ScanLimitPushdown, ih h]
  | hget f b => intro h; simp [OptimizeD1ScanLimitPushdown]
  | hother cs _ => intro h; rw [chainIsD1Get_otherOp] at h; cases h

theorem setChainLimit_setChainLimit (p : LogicalOp) :
    ∀ n m, setChainLimit n (setChainLimit m p) = setChainLimit n p := by
  induction p using LogicalOp.recMem with
  | htopN l o c _ => intro n m; simp [setChainLimit]
  | hlimit v c _ => intro n m; simp [setChainLimit]
  | hprojection c ih => intro n m; simp [setChainLimit, ih n m]
  | hfilter c ih => intro n m; simp [setChainLimit, ih n m]
  | hget f b => intro n m; simp [setChainLimit]
  | hother cs _ => intro n m; simp [setChainLimit]

theorem chainIsD1Get_setChainLimit (p : LogicalOp) :
    ∀ n, chainIsD1Get (setChainLimit n p) = chainIsD1Get p := by
  induction p using LogicalOp.recMem with
  | htopN l o c _ => intro n; simp [setChainLimit]
  | hlimit v c _ => intro n; simp [setChainLimit]
  | hprojection c ih => intro n
                        simp [setChainLimit, chainIsD1Get_projection, ih n]
  | hfilter c ih => intro n
                    simp [setChainLimit, chainIsD1Get_filter, ih n]
  | hget f b => intro n; simp [setChainLimit, chainIsD1Get, chainTarget]
  | hother cs _ => intro n; simp [setChainLimit]

/-- Writing the cap through the chain stores exactly `n` in the `d1_scan`
GET's bind data. -/
theorem chainTarget_setChainLimit (p : LogicalOp) :
    ∀ n, chainIsD1Get p = true →
      chainTarget (setChainLimit n p) = .get "d1_scan" n := by
  induction p using LogicalOp.recMem with
  | htopN l o c _ => intro n h; rw [chainIsD1Get_topN] at h; cases h
  | hlimit v c _ => intro n h; rw [chainIsD1Get_limit] at h; cases h
  | hprojection c ih =>
    intro n h; rw [chainIsD1Get_projection] at h
    simp [setChainLimit, chainTarget, ih n h]
  | hfilter c ih =>
    intro n h; rw [chainIsD1Get_filter] at h
    simp [setChainLimit, chainTarget, ih n h]
  | hget f b =>
    intro n h
    have hf : f = "d1_scan" := by
      simpa [chainIsD1Get, chainTarget] using h
    simp [setChainLimit, chainTarget, hf]
  | hother cs _ => intro n h; rw [chainIsD1Get_otherOp] at h; cases h

/-- On a pure `d1_scan` chain, the fused store-and-recurse equals the
plain store. -/
theorem optimizeSetChain_pure (p : LogicalOp) (n : Nat)
    (h : chainIsD1Get p = true) :
    optimizeSetChain n p = setChainLimit n p := by
  rw [optimizeSetChain_eq p n,
    optimize_pure_chain (setChainLimit n p) (by rw [chainIsD1Get_setChainLimit p n]; exact h)]

/-- A pure `d1_scan` chain contains no LIMIT node, even after the cap is
written. -/
theorem hasLimit_setChainLimit_pure (p : LogicalOp) :
    ∀ n, chainIsD1Get p = true → hasLimit (setChainLimit n p) = false := by
  induction p using LogicalOp.recMem with
  | htopN l o c _ => intro n h; rw [chainIsD1Get_topN] at h; cases h
  | hlimit v c _ => intro n h; rw [chainIsD1Get_limit] at h; cases h
  | hprojection c ih =>
    intro n h; rw [chainIsD1Get_projection] at h
    simp [setChainLimit, hasLimit, ih n h]
  | hfilter c ih =>
    intro n h; rw [chainIsD1Get_filter] at h
    simp [setChainLimit, hasLimit, ih n h]
  | hget f b => intro n h; simp [setChainLimit, hasLimit]
  | hother cs _ => intro n h; rw [chainIsD1Get_otherOp] at h; cases h

/-! ## Claim C3 — LIMIT/TOP_N pushdown over a remote scan chain -/

/-- Claim C3: with a projection/filter chain `c` down to a `d1_scan` GET —
a constant LIMIT stores its value in the binding's limit field and the
LIMIT node is removed (the rewritten plan IS the chain, cap written, no
LIMIT node left in it); a parameterized LIMIT is never pushed and never
removed (plan unchanged); an order-plus-limit TOP_N node pushes only its
row cap and is itself retained. -/
theorem OptimizeD1ScanLimitPushdown_limit_cases (c : LogicalOp) (k l o : Nat)
    (h : chainIsD1Get c = true) :
    (OptimizeD1ScanLimitPushdown (.limit (.constantValue k) c) = setChainLimit k c ∧
      chainTarget (setChainLimit k c) = .get "d1_scan" k ∧
      hasLimit (setChainLimit k c) = false) ∧
    OptimizeD1ScanLimitPushdown (.limit .expressionValue c) =
      .limit .expressionValue c ∧
    (OptimizeD1ScanLimitPushdown (.topN l o c) = .topN l o (setChainLimit l c) ∧
      chainTarget (setChainLimit l c) = .get "d1_scan" l) := by
  refine ⟨⟨?_, chainTarget_setChainLimit c k h, hasLimit_setChainLimit_pure c k h⟩,
    ?_, ?_, chainTarget_setChainLimit c l h⟩
  · simp [OptimizeD1ScanLimitPushdown, h]
  · simp [OptimizeD1ScanLimitPushdown, h, optimize_pure_chain c h]
  · simp [OptimizeD1ScanLimitPushdown, h, optimizeSetChain_pure c l h]

/-- Witness for C3 at the concrete plan `LIMIT 5 (PROJECTION (GET d1_scan))`. -/
theorem OptimizeD1ScanLimitPushdown_limit_cases_witness :
    chainIsD1Get (.projection (.get "d1_scan" 0)) = true ∧
    OptimizeD1ScanLimitPushdown exPlanLimit =
      .projection (.get "d1_scan" 5) := by
  have hchain : chainIsD1Get (.projection (.get "d1_scan" 0)) = true := by
    simp [chainIsD1Get, chainTarget]
  have h := OptimizeD1ScanLimitPushdown_limit_cases
    (.projection (.get "d1_scan" 0)) 5 7 3 hchain
  refine ⟨hchain, ?_⟩
  show OptimizeD1ScanLimitPushdown
    (.limit (.constantValue 5) (.projection (.get "d1_scan" 0))) = _
  rw [h.1.1]
  simp [setChainLimit]

/-! ## Claim C10 — TOP_N pushes its limit without the offset -/

/-- Claim C10: handling a TOP_N node over a `d1_scan` chain stores the
node's limit value alone as the scan's row cap — a non-zero offset is not
added, so the remote is asked for only `limit` rows even though the
retained TOP_N node needs `limit + offset` input rows. -/
theorem OptimizeD1ScanLimitPushdown_topn_offset_ignored (c : LogicalOp)
    (l o : Nat) (h : chainIsD1Get c = true) (ho : 0 < o) :
    OptimizeD1ScanLimitPushdown (.topN l o c) = .topN l o (setChainLimit l c) ∧
    chainTarget (setChainLimit l c) = .get "d1_scan" l ∧
    ∀ b, chainTarget (setChainLimit l c) = .get "d1_scan" b → b ≠ l + o := by
  refine ⟨by simp [OptimizeD1ScanLimitPushdown, h, optimizeSetChain_pure c l h],
    chainTarget_setChainLimit c l h, ?_⟩
  intro b hb
  rw [chainTarget_setChainLimit c l h] at hb
  have hbl : b = l := by
    have := LogicalOp.get.injEq "d1_scan" l "d1_scan" b
    simp at hb
    omega
  omega

/-- Witness for C10 at the concrete plan `TOP_N (limit 2, offset 3)` over
a filter chain. -/
theorem OptimizeD1ScanLimitPushdown_topn_offset_ignored_witness :
    OptimizeD1ScanLimitPushdown (.topN 2 3 (.filter (.get "d1_scan" 0))) =
      .topN 2 3 (.filter (.get "d1_scan" 2)) ∧
    (2 : Nat) ≠ 2 + 3 := by
  have hchain : chainIsD1Get (.filter (.get "d1_scan" 0)) = true := by
    simp [chainIsD1Get, chainTarget]
  have h := OptimizeD1ScanLimitPushdown_topn_offset_ignored
    (.filter (.get "d1_scan" 0)) 2 3 hchain (by omega)
  refine ⟨?_, h.2.2 2 h.2.1⟩
  rw [h.1]
  simp [setChainLimit]

/-! ## Development: idempotence of the rewriter on nesting-free plans -/

theorem chainIsD1Get_optimize (p : LogicalOp) :
    hasLimit p = false →
      chainIsD1Get (OptimizeD1ScanLimitPushdown p) = chainIsD1Get p := by
  induction p using LogicalOp.recMem with
  | htopN l o c _ =>
    intro _
    by_cases hch : chainIsD1Get c <;>
      simp [OptimizeD1ScanLimitPushdown, hch, chainIsD1Get_topN]
  | hlimit v c _ => intro h; simp [hasLimit] at h
  | hprojection c ih =>
    intro h
    have hc : hasLimit c = false := by simpa [hasLimit] using h
    simp [OptimizeD1ScanLimitPushdown, chainIsD1Get_projection, ih hc]
  | hfilter c ih =>
    intro h
    have hc : hasLimit c = false := by simpa [hasLimit] using h
    simp [OptimizeD1ScanLimitPushdown, chainIsD1Get_filter, ih hc]
  | hget f b => intro _; simp [OptimizeD1ScanLimitPushdown]
  | hother cs _ =>
    intro _
    simp [OptimizeD1ScanLimitPushdown, chainIsD1Get_otherOp]

theorem hasLimitList_mem (cs : List LogicalOp) (h : hasLimitList cs = false) :
    ∀ c ∈ cs, hasLimit c = false := by
  induction cs with
  | nil => intro c hc; cases hc
  | cons a t ih =>
    have h' : hasLimit a = false ∧ hasLimitList t = false := by
      simpa [hasLimitList] using h
    intro c hc
    cases hc with
    | head => exact h'.1
    | tail _ hc' => exact ih h'.2 c hc'

theorem noNestedLimitList_of (cs : List LogicalOp)
    (h : ∀ c ∈ cs, noNestedLimit c = true) : noNestedLimitList cs = true := by
  induction cs with
  | nil => simp [noNestedLimitList]
  | cons a t ih =>
    simp [noNestedLimitList, h a (by simp),
      ih (fun c hc => h c (by simp [hc]))]

theorem noNestedLimitList_mem (cs : List LogicalOp)
    (h : noNestedLimitList cs = true) : ∀ c ∈ cs, noNestedLimit c = true := by
  induction cs with
  | nil => intro c hc; cases hc
  | cons a t ih =>
    have h' : noNestedLimit a = true ∧ noNestedLimitList t = true := by
      simpa [noNestedLimitList] using h
    intro c hc
    cases hc with
    | head => exact h'.1
    | tail _ hc' => exact ih h'.2 c hc'

theorem noNested_of_hasLimit_false (p : LogicalOp) :
    hasLimit p = false → noNestedLimit p = true := by
  induction p using LogicalOp.recMem with
  | htopN l o c _ =>
    intro h
    simp [hasLimit] at h
    simp [noNestedLimit, h]
  | hlimit v c _ => intro h; simp [hasLimit] at h
  | hprojection c ih =>
    intro h
    have hc : hasLimit c = false := by simpa [hasLimit] using h
    simp [noNestedLimit, ih hc]
  | hfilter c ih =>
    intro h
    have hc : hasLimit c = false := by simpa [hasLimit] using h
    simp [noNestedLimit, ih hc]
  | hget f b => intro _; simp [noNestedLimit]
  | hother cs ihm =>
    intro h
    have hm : ∀ c ∈ cs, hasLimit c = false :=
      hasLimitList_mem cs (by simpa [hasLimit] using h)
    simp only [noNestedLimit]
    exact noNestedLimitList_of cs (fun c hc => ihm c hc (hm c hc))

theorem optimizeChildren_idem_of (cs : List LogicalOp)
    (h : ∀ c ∈ cs, OptimizeD1ScanLimitPushdown (OptimizeD1ScanLimitPushdown c) =
      OptimizeD1ScanLimitPushdown c) :
    optimizeChildren (optimizeChildren cs) = optimizeChildren cs := by
  induction cs with
  | nil => simp [optimizeChildren]
  | cons a t ih =>
    simp [optimizeChildren, h a (by simp),
      ih (fun c hc => h c (by simp [hc]))]

/-! ## Claim C9 — idempotence of the limit-pushdown rewriter -/

/-- Claim C9, counterexample: on a constant LIMIT directly over another
constant LIMIT over a `d1_scan` GET the rewriter is NOT idempotent — the
first run removes only the inner LIMIT (binding cap 2), the second run
then removes the outer LIMIT and overwrites the cap with 1. -/
theorem OptimizeD1ScanLimitPushdown_not_idempotent :
    OptimizeD1ScanLimitPushdown exPlanNestedLimit =
      .limit (.constantValue 1) (.get "d1_scan" 2) ∧
    OptimizeD1ScanLimitPushdown (OptimizeD1ScanLimitPushdown exPlanNestedLimit) =
      .get "d1_scan" 1 ∧
    OptimizeD1ScanLimitPushdown (OptimizeD1ScanLimitPushdown exPlanNestedLimit) ≠
      OptimizeD1ScanLimitPushdown exPlanNestedLimit := by
  have h1 : OptimizeD1ScanLimitPushdown exPlanNestedLimit =
      .limit (.constantValue 1) (.get "d1_scan" 2) := by
    simp [exPlanNestedLimit, OptimizeD1ScanLimitPushdown, chainIsD1Get,
      chainTarget, setChainLimit]
  have h2 : OptimizeD1ScanLimitPushdown
      (OptimizeD1ScanLimitPushdown exPlanNestedLimit) = .get "d1_scan" 1 := by
    rw [h1]
    simp [OptimizeD1ScanLimitPushdown, chainIsD1Get, chainTarget, setChainLimit]
  refine ⟨h1, h2, ?_⟩
  rw [h2, h1]
  simp

/-- Claim C9 (amended): the rewriter is idempotent on every plan in which
no LIMIT node occurs strictly below another LIMIT or TOP_N node — running
it a second time on the plan produced by the first run changes nothing
(plan shape and every binding's limit field). -/
theorem OptimizeD1ScanLimitPushdown_idempotent (p : LogicalOp)
    (hp : noNestedLimit p = true) :
    OptimizeD1ScanLimitPushdown (OptimizeD1ScanLimitPushdown p) =
      OptimizeD1ScanLimitPushdown p := by
  revert hp
  induction p using LogicalOp.recMem with
  | htopN l o c ih =>
    intro hp
    have hc : hasLimit c = false := by simpa [noNestedLimit] using hp
    by_cases hch : chainIsD1Get c
    · have e1 : OptimizeD1ScanLimitPushdown (.topN l o c) =
          .topN l o (setChainLimit l c) := by
        simp [OptimizeD1ScanLimitPushdown, hch, optimizeSetChain_pure c l hch]
      rw [e1]
      have hch2 : chainIsD1Get (setChainLimit l c) = true := by
        rw [chainIsD1Get_setChainLimit]; exact hch
      simp [OptimizeD1ScanLimitPushdown, hch2, optimizeSetChain_pure _ l hch2,
        setChainLimit_setChainLimit]
    · have hcf : chainIsD1Get c = false := by simpa using hch
      have e1 : OptimizeD1ScanLimitPushdown (.topN l o c) =
          .topN l o (OptimizeD1ScanLimitPushdown c) := by
        simp [OptimizeD1ScanLimitPushdown, hcf]
      rw [e1]
      have hch2 : chainIsD1Get (OptimizeD1ScanLimitPushdown c) = false := by
        rw [chainIsD1Get_optimize c hc]; exact hcf
      simp [OptimizeD1ScanLimitPushdown, hch2,
        ih (noNested_of_hasLimit_false c hc)]
  | hlimit v c ih =>
    intro hp
    have hc : hasLimit c = false := by simpa [noNestedLimit] using hp
    by_cases hch : chainIsD1Get c
    · cases v with
      | constantValue k =>
        have e1 : OptimizeD1ScanLimitPushdown (.limit (.constantValue k) c) =
            setChainLimit k c := by
          simp [OptimizeD1ScanLimitPushdown, hch]
        rw [e1]
        exact optimize_pure_chain _ (by rw [chainIsD1Get_setChainLimit]; exact hch)
      | expressionValue =>
        have e1 : OptimizeD1ScanLimitPushdown (.limit .expressionValue c) =
            .limit .expressionValue c := by
          simp [OptimizeD1ScanLimitPushdown, hch, optimize_pure_chain c hch]
        rw [e1]
        exact e1
    · have hcf : chainIsD1Get c = false := by simpa using hch
      have hch2 : chainIsD1Get (OptimizeD1ScanLimitPushdown c) = false := by
        rw [chainIsD1Get_optimize c hc]; exact hcf
      have hidem := ih (noNested_of_hasLimit_false c hc)
      cases v <;> simp [OptimizeD1ScanLimitPushdown, hcf, hch2, hidem]
  | hprojection c ih =>
    intro hp
    have hc : noNestedLimit c = true := by simpa [noNestedLimit] using hp
    simp [OptimizeD1ScanLimitPushdown, ih hc]
  | hfilter c ih =>
    intro hp
    have hc : noNestedLimit c = true := by simpa [noNestedLimit] using hp
    simp [OptimizeD1ScanLimitPushdown, ih hc]
  | hget f b => intro _; simp [OptimizeD1ScanLimitPushdown]
  | hother cs ihm =>
    intro hp
    have hmem : ∀ c ∈ cs, noNestedLimit c = true :=
      noNestedLimitList_mem cs (by simpa [noNestedLimit] using hp)
    simp only [OptimizeD1ScanLimitPushdown]
    rw [optimizeChildren_idem_of cs (fun c hc => ihm c hc (hmem c hc))]

/-- Witness for the amended C9 at a concrete nesting-free plan. -/
theorem OptimizeD1ScanLimitPushdown_idempotent_witness :
    noNestedLimit exPlanLimit = true ∧
    OptimizeD1ScanLimitPushdown (OptimizeD1ScanLimitPushdown exPlanLimit) =
      OptimizeD1ScanLimitPushdown exPlanLimit := by
  have hn : noNestedLimit exPlanLimit = true := by
    simp [exPlanLimit, noNestedLimit, hasLimit]
  exact ⟨hn, OptimizeD1ScanLimitPushdown_idempotent exPlanLimit hn⟩
